import Mathlib

/-!
Verification development for the voice-blob repository.

The repository drives a 3D blob from microphone input.  The relevant code is:

* useVoiceAnalyser (src/src/components/DebugPanel.tsx, second embedded file):
  the per-tick audio analysis (analyse), the device start/switch operation
  (startListening) and the mute fade.
* VoiceReactiveBlob.tsx: the per-render-frame animator (targets, asymmetric
  smoothing, breathing scale, pointer-miss decay, clock advance call).
* BlobMaterial (src/unnamed/part_000, second embedded file): default uniform
  values (BLOB_DEFAULTS) and the per-frame clock advance (tick).
* blobVertex.glsl (src/unnamed/part_000, first embedded file): the
  displacement function (displace).

All JavaScript numbers are modelled as exact rationals; the GLSL shader
transcendentals (sin, cos, exp, sqrt) and the periodic Perlin noise function
pnoise (whose source, noise.glsl, is not part of the repository snapshot) are
taken as arbitrary function parameters.
-/

open Filter

set_option maxHeartbeats 1000000

/-- Clamp a rational to the interval [0,1].  This models the expression
Math.max(0, Math.min(1, x)) from the analyse function; the appended JS
idiom || 0 only replaces NaN by 0 and is the identity on real numbers. -/
def clamp01 (x : ℚ) : ℚ := max 0 (min 1 x)

/-- VoiceData record from useVoiceAnalyser: overall amplitude and the three
band energies. -/
structure VoiceData where
  amplitude : ℚ
  lowEnergy : ℚ
  midEnergy : ℚ
  highEnergy : ℚ
deriving DecidableEq

/-- EMPTY_VOICE_DATA constant from useVoiceAnalyser. -/
def EMPTY_VOICE_DATA : VoiceData := ⟨0, 0, 0, 0⟩

/-- The global mutable settings record from src/src/lib/debugStore.ts
(fields: sensitivity, noiseGate, animationSpeed, isMuted). -/
structure DebugStore where
  sensitivity : ℚ
  noiseGate : ℚ
  animationSpeed : ℚ
  isMuted : Bool
deriving DecidableEq

/-- Initial values of the debug store (debugStore.ts). -/
def debugStore : DebugStore := ⟨3.0, 0.08, 1.0, false⟩

/-- Noise gate applied to one raw band value in analyse:
raw > gate ? (raw - gate) / (1 - gate) : 0. -/
def gateBand (raw gate : ℚ) : ℚ := if raw > gate then (raw - gate) / (1 - gate) else 0

/-- Attack constant of the envelope follower in analyse. -/
def attack : ℚ := 0.025

/-- Release constant of the envelope follower in analyse. -/
def release : ℚ := 0.992

/-- Asymmetric envelope follower from analyse: rise by a fraction attack of
the gap, otherwise decay by the factor release. -/
def envFollow (target current : ℚ) : ℚ :=
  if target > current then current + (target - current) * attack else current * release

/-- Inputs read by one call of analyse: the debug store snapshot, the byte
frequency data and the analyser bin count (fftSize 256 gives 128 bins). -/
structure TickInput where
  store : DebugStore
  freq : ℕ → ℕ
  binCount : ℕ

/-- Sum of the frequency bytes over a bin range [lo, hi). -/
def bandSum (freq : ℕ → ℕ) (lo hi : ℕ) : ℚ :=
  (Finset.Ico lo hi).sum fun i => (freq i : ℚ)

/-- Mute branch of analyse: every VoiceData field is multiplied by 0.9. -/
def muteStep (v : VoiceData) : VoiceData :=
  ⟨v.amplitude * 0.9, v.lowEnergy * 0.9, v.midEnergy * 0.9, v.highEnergy * 0.9⟩

/-- Unmuted body of the analyse callback: average the three bin bands,
apply the noise gate, sensitivity with band weights 1.0 / 1.2 / 0.8 capped
at 1, the asymmetric envelope follower and the [0,1] clamp, and finally set
amplitude to the maximum of the three bands. -/
def analyseBands (inp : TickInput) (v : VoiceData) : VoiceData :=
    let bufferLength : ℚ := (inp.binCount : ℚ)
    let bassSum := bandSum inp.freq 0 6
    let midSum := bandSum inp.freq 6 50
    let highSum := bandSum inp.freq 50 inp.binCount
    let rawBass := gateBand (bassSum / (6 * 255)) inp.store.noiseGate
    let rawMid := gateBand (midSum / (44 * 255)) inp.store.noiseGate
    let rawHigh := gateBand (highSum / ((bufferLength - 50) * 255)) inp.store.noiseGate
    let targetBass := min 1 (rawBass * inp.store.sensitivity * 1.0)
    let targetMid := min 1 (rawMid * inp.store.sensitivity * 1.2)
    let targetHigh := min 1 (rawHigh * inp.store.sensitivity * 0.8)
    let lowEnergy := clamp01 (envFollow targetBass v.lowEnergy)
    let midEnergy := clamp01 (envFollow targetMid v.midEnergy)
    let highEnergy := clamp01 (envFollow targetHigh v.highEnergy)
    ⟨max lowEnergy (max midEnergy highEnergy), lowEnergy, midEnergy, highEnergy⟩

/-- One analysis tick (the analyse callback in useVoiceAnalyser): when muted
it only fades the stored record and skips the spectrum analysis entirely,
otherwise it runs the band analysis. -/
def analyse (inp : TickInput) (v : VoiceData) : VoiceData :=
  if inp.store.isMuted then muteStep v else analyseBands inp v

/-- Invariant of the VoiceData record: all four fields lie in [0,1] and the
amplitude is exactly the maximum of the three band energies. -/
def voiceInv (v : VoiceData) : Prop :=
  0 ≤ v.lowEnergy ∧ v.lowEnergy ≤ 1 ∧
  0 ≤ v.midEnergy ∧ v.midEnergy ≤ 1 ∧
  0 ≤ v.highEnergy ∧ v.highEnergy ≤ 1 ∧
  0 ≤ v.amplitude ∧ v.amplitude ≤ 1 ∧
  v.amplitude = max v.lowEnergy (max v.midEnergy v.highEnergy)

instance voiceInvDecidable (v : VoiceData) : Decidable (voiceInv v) := by
  unfold voiceInv
  infer_instance

/-- State touched by the start/switch operation of useVoiceAnalyser, as far
as the failure contract is concerned: the VoiceData record, whether the
previously acquired capture stream is still running, whether an analysis
tick is scheduled (requestAnimationFrame id), and the isListening flag. -/
structure SessionState where
  voiceData : VoiceData
  streamActive : Bool
  rafPending : Bool
  isListening : Bool
deriving DecidableEq

/-- The startListening operation of useVoiceAnalyser.  It mirrors the order
of effects in the source: inside the try block it first resets voiceData to
EMPTY_VOICE_DATA, stops the tracks of any existing stream, and cancels the
pending animation frame; only then does it call getUserMedia, the single
fallible step, modelled by the deviceOk flag.  On success it stores the new
stream, sets isListening and schedules the analysis loop, returning true;
on failure the catch block returns false with no further state change. -/
def startListening (deviceOk : Bool) (s : SessionState) : Bool × SessionState :=
  let s1 : SessionState := ⟨EMPTY_VOICE_DATA, s.streamActive, s.rafPending, s.isListening⟩
  let s2 : SessionState := ⟨s1.voiceData, false, s1.rafPending, s1.isListening⟩
  let s3 : SessionState := ⟨s2.voiceData, s2.streamActive, false, s2.isListening⟩
  if deviceOk then (true, ⟨s3.voiceData, true, true, true⟩) else (false, s3)

/-- Idle (= default) and active parameter tuples of the blob animator
(VoiceReactiveBlob.tsx). -/
structure BlobParams where
  distort : ℚ
  speed : ℚ
  surfaceDistort : ℚ
  surfaceSpeed : ℚ
deriving DecidableEq

/-- Default uniform values from BlobMaterial.ts (fields in declaration
order: time, distort, frequency, speed, surfaceDistort, surfaceFrequency,
surfaceSpeed, surfaceTime, numberOfWaves, fixNormals, gooPoleAmount,
surfacePoleAmount). -/
structure BlobUniformValues where
  time : ℚ
  distort : ℚ
  frequency : ℚ
  speed : ℚ
  surfaceDistort : ℚ
  surfaceFrequency : ℚ
  surfaceSpeed : ℚ
  surfaceTime : ℚ
  numberOfWaves : ℚ
  fixNormals : ℚ
  gooPoleAmount : ℚ
  surfacePoleAmount : ℚ
deriving DecidableEq

/-- BLOB_DEFAULTS from BlobMaterial.ts. -/
def BLOB_DEFAULTS : BlobUniformValues :=
  ⟨0, 0.6, 1.5, 0.5, 1.4, 1.2, 0.4, 0, 2.5, 1.0, 0.95, 0.85⟩

/-- IDLE tuple of VoiceReactiveBlob.tsx (taken from BLOB_DEFAULTS). -/
def IDLE : BlobParams :=
  ⟨BLOB_DEFAULTS.distort, BLOB_DEFAULTS.speed, BLOB_DEFAULTS.surfaceDistort,
   BLOB_DEFAULTS.surfaceSpeed⟩

/-- ACTIVE tuple of VoiceReactiveBlob.tsx. -/
def ACTIVE : BlobParams := ⟨0.70, 0.58, 1.7, 0.48⟩

/-- SCALE_IDLE constant of VoiceReactiveBlob.tsx. -/
def SCALE_IDLE : ℚ := 0.64

/-- SCALE_ACTIVE constant of VoiceReactiveBlob.tsx. -/
def SCALE_ACTIVE : ℚ := 0.96

/-- The smoothed per-frame animator state: the four shader uniforms updated
in the useFrame callback plus the breathing scale (currentScale ref). -/
structure AnimState where
  distort : ℚ
  speed : ℚ
  surfaceDistort : ℚ
  surfaceSpeed : ℚ
  scale : ℚ
deriving DecidableEq

/-- Initial animator state: the uniforms start at BLOB_DEFAULTS and the
scale ref starts at SCALE_IDLE. -/
def initialAnimState : AnimState :=
  ⟨BLOB_DEFAULTS.distort, BLOB_DEFAULTS.speed, BLOB_DEFAULTS.surfaceDistort,
   BLOB_DEFAULTS.surfaceSpeed, SCALE_IDLE⟩

/-- Attack rate of the shape-parameter smoothing in VoiceReactiveBlob.tsx. -/
def attackRate : ℚ := 0.02

/-- Release rate of the shape-parameter smoothing in VoiceReactiveBlob.tsx. -/
def releaseRate : ℚ := 0.008

/-- The lr helper of VoiceReactiveBlob.tsx: pick the attack rate when the
target is above the current value, else the release rate. -/
def lerpRate (cur tgt : ℚ) : ℚ := if tgt > cur then attackRate else releaseRate

/-- Shape-parameter and scale update of one useFrame callback in
VoiceReactiveBlob.tsx: targets are linear interpolations between the IDLE
and ACTIVE tuples driven by amplitude (distort, speed, surfaceSpeed, scale)
or max(midEnergy, highEnergy) (surfaceDistort), the speed targets carry the
animationSpeed multiplier, and each parameter moves toward its target by the
asymmetric rate (shape 0.02/0.008, scale 0.06/0.03). -/
def frameStep (speedMult amp mid high : ℚ) (s : AnimState) : AnimState :=
  let targetDistort := IDLE.distort + (ACTIVE.distort - IDLE.distort) * amp
  let targetSpeed := (IDLE.speed + (ACTIVE.speed - IDLE.speed) * amp) * speedMult
  let surfaceAmp := max mid high
  let targetSurfaceDistort :=
    IDLE.surfaceDistort + (ACTIVE.surfaceDistort - IDLE.surfaceDistort) * surfaceAmp
  let targetSurfaceSpeed :=
    (IDLE.surfaceSpeed + (ACTIVE.surfaceSpeed - IDLE.surfaceSpeed) * amp) * speedMult
  let targetScale := SCALE_IDLE + (SCALE_ACTIVE - SCALE_IDLE) * amp
  ⟨s.distort + (targetDistort - s.distort) * lerpRate s.distort targetDistort,
   s.speed + (targetSpeed - s.speed) * lerpRate s.speed targetSpeed,
   s.surfaceDistort +
     (targetSurfaceDistort - s.surfaceDistort) * lerpRate s.surfaceDistort targetSurfaceDistort,
   s.surfaceSpeed +
     (targetSurfaceSpeed - s.surfaceSpeed) * lerpRate s.surfaceSpeed targetSurfaceSpeed,
   s.scale + (targetScale - s.scale) * (if targetScale > s.scale then 0.06 else 0.03)⟩

/-- Animator state after n render frames, starting from the defaults, where
frame n reads animationSpeed from speedMults n and the VoiceData triple
(amplitude, midEnergy, highEnergy) from vs n. -/
def runFrames (speedMults : ℕ → ℚ) (vs : ℕ → ℚ × ℚ × ℚ) : ℕ → AnimState
  | 0 => initialAnimState
  | n + 1 => frameStep (speedMults n) (vs n).1 (vs n).2.1 (vs n).2.2 (runFrames speedMults vs n)

/-- The two animation clocks held in the BlobMaterial uniforms: time and
surfaceTime. -/
structure ClockState where
  time : ℚ
  surfaceTime : ℚ
deriving DecidableEq

/-- BlobMaterial.tick: advance time by delta times the speed uniform and
surfaceTime by delta times the surfaceSpeed uniform. -/
def tick (speed surfaceSpeed delta : ℚ) (c : ClockState) : ClockState :=
  ⟨c.time + delta * speed, c.surfaceTime + delta * surfaceSpeed⟩

/-- The per-frame call site in VoiceReactiveBlob.tsx:
material.tick(dt * speedMult) with speedMult = debugStore.animationSpeed. -/
def frameTick (speed surfaceSpeed animationSpeed dt : ℚ) (c : ClockState) : ClockState :=
  tick speed surfaceSpeed (dt * animationSpeed) c

/-- Pointer-interaction state of VoiceReactiveBlob.tsx restricted to what a
sustained miss touches: the raycastFrame counter and the smoothed
interaction strength. -/
structure PointerState where
  raycastFrame : ℕ
  strength : ℚ
deriving DecidableEq

/-- One native render frame during a sustained pointer miss: the frame
counter is always incremented, and on every 3rd frame the throttled raycast
runs, finds no hit, and multiplies the strength by 0.92. -/
def pointerMissStep (p : PointerState) : PointerState :=
  let f := p.raycastFrame + 1
  if f % 3 = 0 then ⟨f, p.strength * 0.92⟩ else ⟨f, p.strength⟩

/-- Vector of three rationals, modelling a GLSL vec3. -/
structure Vec3 where
  x : ℚ
  y : ℚ
  z : ℚ
deriving DecidableEq

/-- NOISE_PERIOD constant of blobVertex.glsl. -/
def NOISE_PERIOD : ℚ := 10.0

/-- M_PI constant of blobVertex.glsl (a decimal literal in the shader). -/
def M_PI : ℚ := 3.14159265358979323846

/-- GLSL mod(x, y) = x - y * floor(x / y). -/
def glslMod (x y : ℚ) : ℚ := x - y * (⌊x / y⌋ : ℚ)

/-- GLSL clamp(x, lo, hi) = min(max(x, lo), hi). -/
def glslClamp (x lo hi : ℚ) : ℚ := min (max x lo) hi

/-- GLSL smoothstep(e0, e1, x). -/
def smoothstep (e0 e1 x : ℚ) : ℚ :=
  let t := glslClamp ((x - e0) / (e1 - e0)) 0 1
  t * t * (3 - 2 * t)

/-- GLSL mix(a, b, t) = a * (1 - t) + b * t. -/
def glslMix (a b t : ℚ) : ℚ := a * (1 - t) + b * t

/-- Uniform parameters read by the displace function of blobVertex.glsl. -/
structure DisplaceUniforms where
  time : ℚ
  distort : ℚ
  frequency : ℚ
  speed : ℚ
  surfaceDistort : ℚ
  surfaceFrequency : ℚ
  surfaceSpeed : ℚ
  surfaceTime : ℚ
  numberOfWaves : ℚ
  gooPoleAmount : ℚ
  surfacePoleAmount : ℚ
  mouseHit : Vec3
  mouseRadius : ℚ
  mouseStrength : ℚ

/-- Displacement function displace of blobVertex.glsl.  The GLSL built-ins
sin, cos, exp and the length square root are taken as arbitrary function
parameters sinf, cosf, expf, sqrtf, and the periodic Perlin noise pnoise
(prepended from noise.glsl, which is not part of the repository snapshot) is
the parameter pnoise, taking the sample point and the period vector.
GLSL pow(x, 2.0) is written x * x.  A scalar added to a vec3 is added
componentwise, as in GLSL. -/
def displace (sinf cosf expf sqrtf : ℚ → ℚ) (pnoise : Vec3 → Vec3 → ℚ)
    (u : DisplaceUniforms) (point : Vec3) : ℚ :=
  let yPos := smoothstep (-1) 1 point.y
  let poleAmount := sinf (yPos * M_PI)
  let wavePoleAtten := glslMix poleAmount 1 u.surfacePoleAmount
  let gooPoleAtten := glslMix poleAmount 1 u.gooPoleAmount
  let goo := pnoise
      ⟨point.x / u.frequency + glslMod (u.time * u.speed) NOISE_PERIOD,
       point.y / u.frequency + glslMod (u.time * u.speed) NOISE_PERIOD,
       point.z / u.frequency + glslMod (u.time * u.speed) NOISE_PERIOD⟩
      ⟨NOISE_PERIOD, NOISE_PERIOD, NOISE_PERIOD⟩ * (u.distort * u.distort)
  let surfaceNoise := pnoise
      ⟨point.x / u.surfaceFrequency + glslMod u.surfaceTime NOISE_PERIOD,
       point.y / u.surfaceFrequency + glslMod u.surfaceTime NOISE_PERIOD,
       point.z / u.surfaceFrequency + glslMod u.surfaceTime NOISE_PERIOD⟩
      ⟨NOISE_PERIOD, NOISE_PERIOD, NOISE_PERIOD⟩
  let waves := (point.x * sinf ((point.y + surfaceNoise) * M_PI * u.numberOfWaves) +
      point.z * cosf ((point.y + surfaceNoise) * M_PI * u.numberOfWaves)) * 0.03 *
      (u.surfaceDistort * u.surfaceDistort)
  let base := waves * wavePoleAtten + goo * gooPoleAtten
  let mouseDist := sqrtf ((point.x - u.mouseHit.x) * (point.x - u.mouseHit.x) +
      (point.y - u.mouseHit.y) * (point.y - u.mouseHit.y) +
      (point.z - u.mouseHit.z) * (point.z - u.mouseHit.z))
  let mousePush := u.mouseStrength * expf (-mouseDist * mouseDist / (u.mouseRadius * u.mouseRadius))
  base + mousePush

/-! Helper lemmas. -/

theorem clamp01_mem (x : ℚ) : 0 ≤ clamp01 x ∧ clamp01 x ≤ 1 := by
  unfold clamp01
  exact ⟨le_max_left 0 _, max_le (by norm_num) (min_le_left 1 x)⟩

theorem voiceInv_analyseBands (inp : TickInput) (v : VoiceData) :
    voiceInv (analyseBands inp v) := by
  unfold analyseBands voiceInv
  dsimp only
  refine ⟨(clamp01_mem _).1, (clamp01_mem _).2, (clamp01_mem _).1, (clamp01_mem _).2,
    (clamp01_mem _).1, (clamp01_mem _).2, ?_, ?_, rfl⟩
  · exact le_trans (clamp01_mem _).1 (le_max_left _ _)
  · exact max_le (clamp01_mem _).2 (max_le (clamp01_mem _).2 (clamp01_mem _).2)

/-! Claim theorems. -/

/-- Claim C1: after every analysis tick (normal path and mute path alike)
the four VoiceData fields lie in [0,1] and amplitude is exactly the maximum
of the three band energies.  The invariant holds at the initial zero record
and is preserved by every tick, hence it holds after every tick of a run. -/
theorem analyse_voiceInv :
    voiceInv EMPTY_VOICE_DATA ∧
    ∀ (inp : TickInput) (v : VoiceData), voiceInv v → voiceInv (analyse inp v) := by
  refine ⟨by decide, ?_⟩
  intro inp v hv
  unfold analyse
  by_cases hm : inp.store.isMuted
  · rw [if_pos hm]
    obtain ⟨h1, h2, h3, h4, h5, h6, h7, h8, h9⟩ := hv
    unfold muteStep voiceInv
    dsimp only
    refine ⟨by nlinarith, by nlinarith, by nlinarith, by nlinarith, by nlinarith, by nlinarith,
      by nlinarith, by nlinarith, ?_⟩
    rw [h9, max_mul_of_nonneg _ _ (by norm_num : (0:ℚ) ≤ 0.9),
      max_mul_of_nonneg _ _ (by norm_num : (0:ℚ) ≤ 0.9)]
  · rw [if_neg hm]
    exact voiceInv_analyseBands inp v

/-- Concrete instance of the claim C1 theorem. -/
theorem analyse_voiceInv_witness :
    voiceInv EMPTY_VOICE_DATA ∧
    voiceInv (analyse ⟨⟨3.0, 0.08, 1.0, false⟩, fun _ => 0, 128⟩ EMPTY_VOICE_DATA) :=
  ⟨by decide,
   analyse_voiceInv.2 ⟨⟨3.0, 0.08, 1.0, false⟩, fun _ => 0, 128⟩ EMPTY_VOICE_DATA (by decide)⟩

/-- Claim C3: the noise gate returns (raw - gate) / (1 - gate) above the
gate and 0 otherwise; it is exactly 0 whenever raw ≤ gate, and for a fixed
raw value in [0,1] it is non-increasing in the gate over [0, 0.3]. -/
theorem gateBand_zero_and_antitone :
    (∀ r g : ℚ, r ≤ g → gateBand r g = 0) ∧
    (∀ r g g' : ℚ, 0 ≤ r → r ≤ 1 → 0 ≤ g → g ≤ g' → g' ≤ 0.3 →
      gateBand r g' ≤ gateBand r g) := by
  constructor
  · intro r g h
    unfold gateBand
    rw [if_neg (not_lt.mpr h)]
  · intro r g g' hr0 hr1 hg0 hgg h03
    unfold gateBand
    have hg1 : g < 1 := lt_of_le_of_lt (le_trans hgg h03) (by norm_num)
    have hg1' : g' < 1 := lt_of_le_of_lt h03 (by norm_num)
    by_cases h2 : r > g'
    · have h1 : r > g := lt_of_le_of_lt hgg h2
      rw [if_pos h2, if_pos h1]
      rw [div_le_div_iff₀ (by linarith) (by linarith)]
      nlinarith [mul_nonneg (sub_nonneg.mpr hgg) (sub_nonneg.mpr hr1)]
    · rw [if_neg h2]
      by_cases h1 : r > g
      · rw [if_pos h1]
        exact div_nonneg (by linarith) (by linarith)
      · rw [if_neg h1]

/-- Concrete instance of the claim C3 theorem. -/
theorem gateBand_zero_and_antitone_witness :
    gateBand 0.05 0.08 = 0 ∧ gateBand 0.5 0.2 ≤ gateBand 0.5 0.1 :=
  ⟨gateBand_zero_and_antitone.1 0.05 0.08 (by norm_num),
   gateBand_zero_and_antitone.2 0.5 0.1 0.2 (by norm_num) (by norm_num) (by norm_num)
     (by norm_num) (by norm_num)⟩

/-- Claim C4: the per-band envelope follower uses attack 0.025 and release
0.992; rising ticks add (target - current) × 0.025 and all other ticks
multiply by 0.992.  With the target held at 1, a value below 1 gains exactly
attack × (1 - current) per tick, strictly increasing while staying below 1;
with the target dropped to 0, n ticks from a nonnegative start give exactly
current × 0.992 ^ n, and a positive value never reaches 0 in a single tick. -/
theorem envFollow_asymmetry :
    (attack = 0.025 ∧ release = 0.992) ∧
    (∀ t c : ℚ, t > c → envFollow t c = c + (t - c) * 0.025) ∧
    (∀ t c : ℚ, ¬t > c → envFollow t c = c * 0.992) ∧
    (∀ c : ℚ, c < 1 →
      envFollow 1 c = c + 0.025 * (1 - c) ∧ c < envFollow 1 c ∧ envFollow 1 c < 1) ∧
    (∀ c : ℚ, 0 ≤ c → ∀ n : ℕ, (envFollow 0)^[n] c = c * 0.992 ^ n) ∧
    (∀ c : ℚ, 0 < c → 0 < envFollow 0 c) := by
  have hrise : ∀ t c : ℚ, t > c → envFollow t c = c + (t - c) * 0.025 := by
    intro t c h
    unfold envFollow attack
    rw [if_pos h]
  have hfall : ∀ t c : ℚ, ¬t > c → envFollow t c = c * 0.992 := by
    intro t c h
    unfold envFollow release
    rw [if_neg h]
  refine ⟨⟨rfl, rfl⟩, hrise, hfall, ?_, ?_, ?_⟩
  · intro c hc
    have h1 : (1:ℚ) > c := hc
    rw [hrise 1 c h1]
    refine ⟨by ring, by nlinarith, by nlinarith⟩
  · intro c hc n
    induction n with
    | zero => simp
    | succ k ih =>
      have hk : (0:ℚ) ≤ c * 0.992 ^ k := by positivity
      rw [Function.iterate_succ_apply', ih, hfall 0 _ (not_lt.mpr hk)]
      ring
  · intro c hc
    rw [hfall 0 c (not_lt.mpr hc.le)]
    nlinarith

/-- Concrete instance of the claim C4 theorem. -/
theorem envFollow_asymmetry_witness :
    envFollow 1 0.5 = 0.5 + 0.025 * (1 - 0.5) ∧
    (envFollow 0)^[3] 0.5 = 0.5 * 0.992 ^ 3 ∧
    0 < envFollow 0 0.5 :=
  ⟨(envFollow_asymmetry.2.2.2.1 0.5 (by norm_num)).1,
   envFollow_asymmetry.2.2.2.2.1 0.5 (by norm_num) 3,
   envFollow_asymmetry.2.2.2.2.2 0.5 (by norm_num)⟩

theorem muteStep_iterate (v : VoiceData) (n : ℕ) :
    muteStep^[n] v =
      ⟨v.amplitude * 0.9 ^ n, v.lowEnergy * 0.9 ^ n,
       v.midEnergy * 0.9 ^ n, v.highEnergy * 0.9 ^ n⟩ := by
  induction n with
  | zero => simp
  | succ k ih =>
    rw [Function.iterate_succ_apply', ih]
    unfold muteStep
    dsimp only
    congr 1 <;> ring

theorem tendsto_mul_geom (c : ℚ) :
    Tendsto (fun n : ℕ => ((c * 0.9 ^ n : ℚ) : ℝ)) atTop (nhds 0) := by
  have h : (fun n : ℕ => ((c * 0.9 ^ n : ℚ) : ℝ)) = fun n : ℕ => (c : ℝ) * (0.9 : ℝ) ^ n := by
    funext n
    push_cast
    norm_num
  rw [h]
  have hp := (tendsto_pow_atTop_nhds_zero_of_lt_one
    (by norm_num : (0:ℝ) ≤ 0.9) (by norm_num : (0.9:ℝ) < 1)).const_mul (c : ℝ)
  simpa using hp

/-- Claim C5: while muted, a tick skips spectrum analysis entirely and
multiplies all four VoiceData fields by exactly 0.9 (independently of the
frequency data), so after n mute ticks each field equals its initial value
times 0.9 ^ n, stays nonnegative when it started nonnegative, and tends to
0 as n tends to infinity. -/
theorem mute_fade :
    (∀ (inp : TickInput) (v : VoiceData), inp.store.isMuted = true → analyse inp v = muteStep v) ∧
    (∀ (v : VoiceData) (n : ℕ),
      (muteStep^[n] v).amplitude = v.amplitude * 0.9 ^ n ∧
      (muteStep^[n] v).lowEnergy = v.lowEnergy * 0.9 ^ n ∧
      (muteStep^[n] v).midEnergy = v.midEnergy * 0.9 ^ n ∧
      (muteStep^[n] v).highEnergy = v.highEnergy * 0.9 ^ n) ∧
    (∀ (v : VoiceData) (n : ℕ), 0 ≤ v.amplitude → 0 ≤ v.lowEnergy → 0 ≤ v.midEnergy →
      0 ≤ v.highEnergy →
      0 ≤ (muteStep^[n] v).amplitude ∧ 0 ≤ (muteStep^[n] v).lowEnergy ∧
      0 ≤ (muteStep^[n] v).midEnergy ∧ 0 ≤ (muteStep^[n] v).highEnergy) ∧
    (∀ v : VoiceData,
      Tendsto (fun n : ℕ => (((muteStep^[n] v).amplitude : ℚ) : ℝ)) atTop (nhds 0) ∧
      Tendsto (fun n : ℕ => (((muteStep^[n] v).lowEnergy : ℚ) : ℝ)) atTop (nhds 0) ∧
      Tendsto (fun n : ℕ => (((muteStep^[n] v).midEnergy : ℚ) : ℝ)) atTop (nhds 0) ∧
      Tendsto (fun n : ℕ => (((muteStep^[n] v).highEnergy : ℚ) : ℝ)) atTop (nhds 0)) := by
  refine ⟨?_, ?_, ?_, ?_⟩
  · intro inp v hm
    unfold analyse
    rw [if_pos hm]
  · intro v n
    rw [muteStep_iterate]
    exact ⟨rfl, rfl, rfl, rfl⟩
  · intro v n ha hl hm hh
    rw [muteStep_iterate]
    refine ⟨?_, ?_, ?_, ?_⟩ <;> positivity
  · intro v
    refine ⟨?_, ?_, ?_, ?_⟩ <;>
      simp only [muteStep_iterate] <;> exact tendsto_mul_geom _

/-- Concrete instance of the claim C5 theorem. -/
theorem mute_fade_witness :
    analyse ⟨⟨3.0, 0.08, 1.0, true⟩, fun _ => 0, 128⟩ ⟨1, 1, 1, 1⟩ = muteStep ⟨1, 1, 1, 1⟩ ∧
    (muteStep^[2] (⟨1, 1, 1, 1⟩ : VoiceData)).amplitude = (1 : ℚ) * 0.9 ^ 2 ∧
    0 ≤ (muteStep^[2] (⟨1, 1, 1, 1⟩ : VoiceData)).amplitude :=
  ⟨mute_fade.1 _ _ rfl, (mute_fade.2.1 ⟨1, 1, 1, 1⟩ 2).1,
   (mute_fade.2.2.1 ⟨1, 1, 1, 1⟩ 2 (by norm_num) (by norm_num) (by norm_num) (by norm_num)).1⟩

/-- Claim C2 counterexample: a failing startListening call does not leave
the prior state untouched.  From a working session (nonzero VoiceData,
running stream, scheduled tick) a failed call returns false but the
resulting state differs from the prior one. -/
theorem startListening_failure_changes_state :
    (startListening false ⟨⟨0.5, 0.5, 0, 0⟩, true, true, true⟩).1 = false ∧
    (startListening false ⟨⟨0.5, 0.5, 0, 0⟩, true, true, true⟩).2 ≠
      ⟨⟨0.5, 0.5, 0, 0⟩, true, true, true⟩ := by
  refine ⟨rfl, fun h => ?_⟩
  rw [show (startListening false ⟨⟨0.5, 0.5, 0, 0⟩, true, true, true⟩).2
      = ⟨EMPTY_VOICE_DATA, false, false, true⟩ from rfl] at h
  simp only [EMPTY_VOICE_DATA, SessionState.mk.injEq, VoiceData.mk.injEq] at h
  exact absurd h.2.1 (by norm_num)

/-- Claim C2 (amended): if startListening fails because device access is
denied or unavailable, it returns false, but the prior session has already
been torn down when the failure occurs: VoiceData is reset to the zero
record, the previous capture stream is stopped and the scheduled analysis
tick is cancelled; only the isListening flag keeps its prior value.  A
failed switch therefore does kill an already-working session. -/
theorem startListening_failure_teardown (s : SessionState) :
    startListening false s = (false, ⟨EMPTY_VOICE_DATA, false, false, s.isListening⟩) := rfl

theorem smoothTowards_abs (cur tgt r : ℚ) (h1 : r ≤ 1) :
    |cur + (tgt - cur) * r - tgt| = (1 - r) * |cur - tgt| := by
  have e : cur + (tgt - cur) * r - tgt = (1 - r) * (cur - tgt) := by ring
  rw [e, abs_mul, abs_of_nonneg (by linarith : (0:ℚ) ≤ 1 - r)]

theorem smoothTowards_mem (cur tgt r lo hi : ℚ) (hr0 : 0 ≤ r) (hr1 : r ≤ 1)
    (hcl : lo ≤ cur) (hch : cur ≤ hi) (htl : lo ≤ tgt) (hth : tgt ≤ hi) :
    lo ≤ cur + (tgt - cur) * r ∧ cur + (tgt - cur) * r ≤ hi := by
  constructor
  · nlinarith [mul_nonneg (by linarith : (0:ℚ) ≤ 1 - r) (by linarith : (0:ℚ) ≤ cur - lo),
      mul_nonneg hr0 (by linarith : (0:ℚ) ≤ tgt - lo)]
  · nlinarith [mul_nonneg (by linarith : (0:ℚ) ≤ 1 - r) (by linarith : (0:ℚ) ≤ hi - cur),
      mul_nonneg hr0 (by linarith : (0:ℚ) ≤ hi - tgt)]

theorem tendsto_of_contraction (u : ℕ → ℚ) (L q : ℚ) (hq0 : 0 ≤ q) (hq1 : q < 1)
    (h : ∀ n, |u (n + 1) - L| ≤ q * |u n - L|) :
    Tendsto (fun n : ℕ => ((u n : ℚ) : ℝ)) atTop (nhds ((L : ℚ) : ℝ)) := by
  have hb : ∀ n, |u n - L| ≤ |u 0 - L| * q ^ n := by
    intro n
    induction n with
    | zero => simp
    | succ k ih =>
      calc |u (k + 1) - L| ≤ q * |u k - L| := h k
        _ ≤ q * (|u 0 - L| * q ^ k) := mul_le_mul_of_nonneg_left ih hq0
        _ = |u 0 - L| * q ^ (k + 1) := by ring
  have hup : Tendsto (fun n : ℕ => ((|u 0 - L| : ℚ) : ℝ) * ((q : ℚ) : ℝ) ^ n) atTop (nhds 0) := by
    have hp := (tendsto_pow_atTop_nhds_zero_of_lt_one
      (by exact_mod_cast hq0 : (0:ℝ) ≤ (q : ℝ))
      (by exact_mod_cast hq1 : (q : ℝ) < 1)).const_mul ((|u 0 - L| : ℚ) : ℝ)
    simpa using hp
  have habs : Tendsto (fun n : ℕ => |((u n : ℚ) : ℝ) - ((L : ℚ) : ℝ)|) atTop (nhds 0) := by
    refine tendsto_of_tendsto_of_tendsto_of_le_of_le tendsto_const_nhds hup ?_ ?_
    · intro n
      exact abs_nonneg _
    · intro n
      show |((u n : ℚ) : ℝ) - ((L : ℚ) : ℝ)| ≤ ((|u 0 - L| : ℚ) : ℝ) * ((q : ℚ) : ℝ) ^ n
      exact_mod_cast hb n
  have hsub : Tendsto (fun n : ℕ => ((u n : ℚ) : ℝ) - ((L : ℚ) : ℝ)) atTop (nhds 0) := by
    rw [tendsto_zero_iff_abs_tendsto_zero]
    exact habs
  exact tendsto_sub_nhds_zero_iff.mp hsub

theorem frameStep_distort (a amp mid high : ℚ) (s : AnimState) :
    (frameStep a amp mid high s).distort =
      s.distort + ((0.6 + (0.70 - 0.6) * amp) - s.distort) *
        lerpRate s.distort (0.6 + (0.70 - 0.6) * amp) := rfl

theorem frameStep_speed (a amp mid high : ℚ) (s : AnimState) :
    (frameStep a amp mid high s).speed =
      s.speed + (((0.5 + (0.58 - 0.5) * amp) * a) - s.speed) *
        lerpRate s.speed ((0.5 + (0.58 - 0.5) * amp) * a) := rfl

theorem frameStep_surfaceDistort (a amp mid high : ℚ) (s : AnimState) :
    (frameStep a amp mid high s).surfaceDistort =
      s.surfaceDistort + ((1.4 + (1.7 - 1.4) * max mid high) - s.surfaceDistort) *
        lerpRate s.surfaceDistort (1.4 + (1.7 - 1.4) * max mid high) := rfl

theorem frameStep_scale (a amp mid high : ℚ) (s : AnimState) :
    (frameStep a amp mid high s).scale =
      s.scale + ((0.64 + (0.96 - 0.64) * amp) - s.scale) *
        (if (0.64 + (0.96 - 0.64) * amp) > s.scale then (0.06 : ℚ) else 0.03) := rfl

theorem lerp_step_contract (cur tgt : ℚ) :
    |cur + (tgt - cur) * lerpRate cur tgt - tgt| ≤ 0.992 * |cur - tgt| := by
  have ha := abs_nonneg (cur - tgt)
  unfold lerpRate attackRate releaseRate
  by_cases h : tgt > cur
  · rw [if_pos h, smoothTowards_abs _ _ _ (by norm_num)]
    nlinarith
  · rw [if_neg h, smoothTowards_abs _ _ _ (by norm_num)]
    nlinarith

theorem scale_step_contract (cur tgt : ℚ) :
    |cur + (tgt - cur) * (if tgt > cur then (0.06 : ℚ) else 0.03) - tgt| ≤
      0.992 * |cur - tgt| := by
  have ha := abs_nonneg (cur - tgt)
  by_cases h : tgt > cur
  · rw [if_pos h, smoothTowards_abs _ _ _ (by norm_num)]
    nlinarith
  · rw [if_neg h, smoothTowards_abs _ _ _ (by norm_num)]
    nlinarith

/-- Claim C6: with amplitude, midEnergy and highEnergy held at 0 and a fixed
animationSpeed, the smoothed animator parameters converge (within any
tolerance) to the idle tuple: distort to 0.6, speed to 0.5 times the
animationSpeed, surfaceDistort to 1.4, and the breathing scale to 0.64. -/
theorem idle_convergence (a : ℚ) (s0 : AnimState) :
    Tendsto (fun n : ℕ => ((((frameStep a 0 0 0)^[n] s0).distort : ℚ) : ℝ)) atTop
      (nhds ((0.6 : ℚ) : ℝ)) ∧
    Tendsto (fun n : ℕ => ((((frameStep a 0 0 0)^[n] s0).speed : ℚ) : ℝ)) atTop
      (nhds ((0.5 * a : ℚ) : ℝ)) ∧
    Tendsto (fun n : ℕ => ((((frameStep a 0 0 0)^[n] s0).surfaceDistort : ℚ) : ℝ)) atTop
      (nhds ((1.4 : ℚ) : ℝ)) ∧
    Tendsto (fun n : ℕ => ((((frameStep a 0 0 0)^[n] s0).scale : ℚ) : ℝ)) atTop
      (nhds ((0.64 : ℚ) : ℝ)) := by
  have hIdleD : (0.6 + (0.70 - 0.6) * (0:ℚ)) = 0.6 := by norm_num
  have hIdleSp : ((0.5 + (0.58 - 0.5) * (0:ℚ)) * a) = 0.5 * a := by norm_num
  have hIdleSd : (1.4 + (1.7 - 1.4) * max (0:ℚ) 0) = 1.4 := by norm_num
  have hIdleSc : (0.64 + (0.96 - 0.64) * (0:ℚ)) = 0.64 := by norm_num
  refine ⟨?_, ?_, ?_, ?_⟩
  · apply tendsto_of_contraction _ _ 0.992 (by norm_num) (by norm_num)
    intro n
    rw [Function.iterate_succ_apply', frameStep_distort, hIdleD]
    exact lerp_step_contract _ _
  · apply tendsto_of_contraction _ _ 0.992 (by norm_num) (by norm_num)
    intro n
    rw [Function.iterate_succ_apply', frameStep_speed, hIdleSp]
    exact lerp_step_contract _ _
  · apply tendsto_of_contraction _ _ 0.992 (by norm_num) (by norm_num)
    intro n
    rw [Function.iterate_succ_apply', frameStep_surfaceDistort, hIdleSd]
    exact lerp_step_contract _ _
  · apply tendsto_of_contraction _ _ 0.992 (by norm_num) (by norm_num)
    intro n
    rw [Function.iterate_succ_apply', frameStep_scale, hIdleSc]
    exact scale_step_contract _ _

theorem frameTick_iterate (speed surfaceSpeed a dt : ℚ) (c : ClockState) (n : ℕ) :
    (frameTick speed surfaceSpeed a dt)^[n] c =
      ⟨c.time + n * (dt * a * speed), c.surfaceTime + n * (dt * a * surfaceSpeed)⟩ := by
  induction n with
  | zero => simp
  | succ k ih =>
    rw [Function.iterate_succ_apply', ih]
    unfold frameTick tick
    dsimp only
    congr 1 <;> push_cast <;> ring

/-- Claim C7: each render frame advances the material clock by
dt × speed × animationSpeed and the independent surface clock by
dt × surfaceSpeed × animationSpeed (the exact-increment equations show the
step never wraps or resets either clock); with nonnegative inputs both
clocks are non-decreasing, and holding positive inputs fixed both clocks
eventually exceed any bound. -/
theorem clock_advance (speed surfaceSpeed animationSpeed dt : ℚ) (c : ClockState)
    (hdt : 0 ≤ dt) (hs : 0 ≤ speed) (hss : 0 ≤ surfaceSpeed) (ha : 0 ≤ animationSpeed) :
    ((frameTick speed surfaceSpeed animationSpeed dt c).time =
        c.time + dt * speed * animationSpeed ∧
     (frameTick speed surfaceSpeed animationSpeed dt c).surfaceTime =
        c.surfaceTime + dt * surfaceSpeed * animationSpeed) ∧
    (c.time ≤ (frameTick speed surfaceSpeed animationSpeed dt c).time ∧
     c.surfaceTime ≤ (frameTick speed surfaceSpeed animationSpeed dt c).surfaceTime) ∧
    (0 < dt → 0 < speed → 0 < surfaceSpeed → 0 < animationSpeed → ∀ M : ℚ, ∃ n : ℕ,
      M < ((frameTick speed surfaceSpeed animationSpeed dt)^[n] c).time ∧
      M < ((frameTick speed surfaceSpeed animationSpeed dt)^[n] c).surfaceTime) := by
  have e1 : (frameTick speed surfaceSpeed animationSpeed dt c).time =
      c.time + dt * speed * animationSpeed := by
    unfold frameTick tick
    dsimp only
    ring
  have e2 : (frameTick speed surfaceSpeed animationSpeed dt c).surfaceTime =
      c.surfaceTime + dt * surfaceSpeed * animationSpeed := by
    unfold frameTick tick
    dsimp only
    ring
  refine ⟨⟨e1, e2⟩, ⟨?_, ?_⟩, ?_⟩
  · rw [e1]
    nlinarith [mul_nonneg (mul_nonneg hdt hs) ha]
  · rw [e2]
    nlinarith [mul_nonneg (mul_nonneg hdt hss) ha]
  · intro hdt' hs' hss' ha' M
    obtain ⟨n, hn⟩ := exists_nat_gt
      (max ((M - c.time) / (dt * animationSpeed * speed))
        ((M - c.surfaceTime) / (dt * animationSpeed * surfaceSpeed)))
    refine ⟨n, ?_, ?_⟩
    · rw [frameTick_iterate]
      dsimp only
      have hpos : 0 < dt * animationSpeed * speed := by positivity
      have h1 : (M - c.time) / (dt * animationSpeed * speed) < (n : ℚ) :=
        lt_of_le_of_lt (le_max_left _ _) hn
      rw [div_lt_iff₀ hpos] at h1
      linarith
    · rw [frameTick_iterate]
      dsimp only
      have hpos : 0 < dt * animationSpeed * surfaceSpeed := by positivity
      have h1 : (M - c.surfaceTime) / (dt * animationSpeed * surfaceSpeed) < (n : ℚ) :=
        lt_of_le_of_lt (le_max_right _ _) hn
      rw [div_lt_iff₀ hpos] at h1
      linarith

/-- Concrete instance of the claim C7 theorem. -/
theorem clock_advance_witness :
    (frameTick 1 1 1 1 ⟨0, 0⟩).time = 0 + 1 * 1 * 1 ∧
    (∃ n : ℕ, (5 : ℚ) < ((frameTick 1 1 1 1)^[n] (⟨0, 0⟩ : ClockState)).time ∧
      (5 : ℚ) < ((frameTick 1 1 1 1)^[n] (⟨0, 0⟩ : ClockState)).surfaceTime) :=
  ⟨(clock_advance 1 1 1 1 ⟨0, 0⟩ (by norm_num) (by norm_num) (by norm_num) (by norm_num)).1.1,
   (clock_advance 1 1 1 1 ⟨0, 0⟩ (by norm_num) (by norm_num) (by norm_num)
     (by norm_num)).2.2 (by norm_num) (by norm_num) (by norm_num) (by norm_num) 5⟩

theorem pointerMissStep_three (m : ℕ) (s : ℚ) :
    pointerMissStep^[3] ⟨3 * m, s⟩ = ⟨3 * (m + 1), s * 0.92⟩ := by
  have h1 : ¬(3 * m + 1) % 3 = 0 := by omega
  have h2 : ¬(3 * m + 1 + 1) % 3 = 0 := by omega
  have h3 : (3 * m + 1 + 1 + 1) % 3 = 0 := by omega
  have e1 : pointerMissStep ⟨3 * m, s⟩ = ⟨3 * m + 1, s⟩ := by
    unfold pointerMissStep
    dsimp only
    rw [if_neg h1]
  have e2 : pointerMissStep ⟨3 * m + 1, s⟩ = ⟨3 * m + 1 + 1, s⟩ := by
    unfold pointerMissStep
    dsimp only
    rw [if_neg h2]
  have e3 : pointerMissStep ⟨3 * m + 1 + 1, s⟩ = ⟨3 * m + 1 + 1 + 1, s * 0.92⟩ := by
    unfold pointerMissStep
    dsimp only
    rw [if_pos h3]
  show pointerMissStep (pointerMissStep (pointerMissStep ⟨3 * m, s⟩)) = _
  rw [e1, e2, e3]
  congr 1

theorem pointerMissStep_iterate (s : ℚ) (N : ℕ) :
    pointerMissStep^[3 * N] ⟨0, s⟩ = ⟨3 * N, s * 0.92 ^ N⟩ := by
  induction N with
  | zero => simp
  | succ k ih =>
    have e : 3 * (k + 1) = 3 + 3 * k := by ring
    rw [e, Function.iterate_add_apply, ih, pointerMissStep_three]
    congr 1
    ring

/-- Claim C8: starting from interaction strength 0.4, a sustained pointer
miss gives strength exactly 0.4 × 0.92 ^ N after N throttled (every 3rd
render frame) evaluations; the sequence is strictly decreasing and always
positive, hence never negative. -/
theorem pointer_miss_decay :
    (∀ N : ℕ, (pointerMissStep^[3 * N] (⟨0, 0.4⟩ : PointerState)).strength = 0.4 * 0.92 ^ N) ∧
    (∀ N : ℕ, (pointerMissStep^[3 * (N + 1)] (⟨0, 0.4⟩ : PointerState)).strength <
      (pointerMissStep^[3 * N] (⟨0, 0.4⟩ : PointerState)).strength) ∧
    (∀ N : ℕ, 0 < (pointerMissStep^[3 * N] (⟨0, 0.4⟩ : PointerState)).strength) := by
  have hf : ∀ N : ℕ, (pointerMissStep^[3 * N] (⟨0, 0.4⟩ : PointerState)).strength =
      0.4 * 0.92 ^ N := by
    intro N
    rw [pointerMissStep_iterate]
  refine ⟨hf, ?_, ?_⟩
  · intro N
    rw [hf, hf]
    have h := pow_lt_pow_right_of_lt_one₀ (by norm_num : (0:ℚ) < 0.92)
      (by norm_num : (0.92:ℚ) < 1) (by omega : N < N + 1)
    nlinarith
  · intro N
    rw [hf]
    positivity

theorem glslMod_add_period (x : ℚ) :
    glslMod (x + NOISE_PERIOD) NOISE_PERIOD = glslMod x NOISE_PERIOD := by
  have h10 : NOISE_PERIOD = (10 : ℚ) := by norm_num [NOISE_PERIOD]
  rw [h10]
  unfold glslMod
  have e : (x + 10) / 10 = x / 10 + 1 := by ring
  rw [e, Int.floor_add_one]
  push_cast
  ring

/-- Claim C9: for a fixed spatial point and fixed uniform parameters with
speed ≠ 0, the displace function of the vertex shader returns identical
output at time t and at time t + NOISE_PERIOD / speed (the time shift that
advances the animation phase mod(time × speed, NOISE_PERIOD) by exactly one
noise-space period, NOISE_PERIOD = 10), so looping the time input is
seamless: the two samples coincide exactly, for arbitrary interpretations
of the GLSL built-ins and of the periodic noise function.  Likewise, the
surface clock is periodic with noise-space period NOISE_PERIOD itself. -/
theorem displace_time_periodic (sinf cosf expf sqrtf : ℚ → ℚ) (pnoise : Vec3 → Vec3 → ℚ)
    (u : DisplaceUniforms) (point : Vec3) (hspeed : u.speed ≠ 0) :
    displace sinf cosf expf sqrtf pnoise
      ⟨u.time + NOISE_PERIOD / u.speed, u.distort, u.frequency, u.speed, u.surfaceDistort,
       u.surfaceFrequency, u.surfaceSpeed, u.surfaceTime, u.numberOfWaves, u.gooPoleAmount,
       u.surfacePoleAmount, u.mouseHit, u.mouseRadius, u.mouseStrength⟩ point =
      displace sinf cosf expf sqrtf pnoise u point ∧
    displace sinf cosf expf sqrtf pnoise
      ⟨u.time, u.distort, u.frequency, u.speed, u.surfaceDistort, u.surfaceFrequency,
       u.surfaceSpeed, u.surfaceTime + NOISE_PERIOD, u.numberOfWaves, u.gooPoleAmount,
       u.surfacePoleAmount, u.mouseHit, u.mouseRadius, u.mouseStrength⟩ point =
      displace sinf cosf expf sqrtf pnoise u point := by
  have key : glslMod ((u.time + NOISE_PERIOD / u.speed) * u.speed) NOISE_PERIOD =
      glslMod (u.time * u.speed) NOISE_PERIOD := by
    have e : (u.time + NOISE_PERIOD / u.speed) * u.speed = u.time * u.speed + NOISE_PERIOD := by
      rw [add_mul, div_mul_cancel₀ _ hspeed]
    rw [e, glslMod_add_period]
  constructor
  · unfold displace
    dsimp only
    rw [key]
  · unfold displace
    dsimp only
    rw [glslMod_add_period]

/-- Concrete instance of the claim C9 theorem. -/
theorem displace_time_periodic_witness :
    (1 : ℚ) ≠ 0 ∧
    displace (fun q => q) (fun q => q) (fun q => q) (fun q => q) (fun p _ => p.x)
      ⟨0 + NOISE_PERIOD / 1, 0.6, 1.5, 1, 1.4, 1.2, 0.4, 0, 2.5, 0.95, 0.85,
       ⟨0, 0, 0⟩, 0.55, 0⟩ ⟨0, 0, 0⟩ =
    displace (fun q => q) (fun q => q) (fun q => q) (fun q => q) (fun p _ => p.x)
      ⟨0, 0.6, 1.5, 1, 1.4, 1.2, 0.4, 0, 2.5, 0.95, 0.85, ⟨0, 0, 0⟩, 0.55, 0⟩ ⟨0, 0, 0⟩ :=
  ⟨by norm_num,
   (displace_time_periodic (fun q => q) (fun q => q) (fun q => q) (fun q => q) (fun p _ => p.x)
     ⟨0, 0.6, 1.5, 1, 1.4, 1.2, 0.4, 0, 2.5, 0.95, 0.85, ⟨0, 0, 0⟩, 0.55, 0⟩ ⟨0, 0, 0⟩
     (by norm_num)).1⟩

theorem lerp_target_mem (lo hi t : ℚ) (hlh : lo ≤ hi) (ht0 : 0 ≤ t) (ht1 : t ≤ 1) :
    lo ≤ lo + (hi - lo) * t ∧ lo + (hi - lo) * t ≤ hi := by
  constructor <;> nlinarith

theorem lerp_step_mem (cur tgt lo hi : ℚ) (hcl : lo ≤ cur) (hch : cur ≤ hi)
    (htl : lo ≤ tgt) (hth : tgt ≤ hi) :
    lo ≤ cur + (tgt - cur) * lerpRate cur tgt ∧
      cur + (tgt - cur) * lerpRate cur tgt ≤ hi := by
  refine smoothTowards_mem cur tgt _ lo hi ?_ ?_ hcl hch htl hth
  · unfold lerpRate attackRate releaseRate
    split <;> norm_num
  · unfold lerpRate attackRate releaseRate
    split <;> norm_num

theorem scale_step_mem (cur tgt lo hi : ℚ) (hcl : lo ≤ cur) (hch : cur ≤ hi)
    (htl : lo ≤ tgt) (hth : tgt ≤ hi) :
    lo ≤ cur + (tgt - cur) * (if tgt > cur then (0.06 : ℚ) else 0.03) ∧
      cur + (tgt - cur) * (if tgt > cur then (0.06 : ℚ) else 0.03) ≤ hi := by
  refine smoothTowards_mem cur tgt _ lo hi ?_ ?_ hcl hch htl hth
  · split <;> norm_num
  · split <;> norm_num

/-- Claim C10: starting from the default uniforms, for every frame sequence
whose VoiceData inputs stay in [0,1], the three smoothed parameters that
carry no animationSpeed multiplier stay in the closed interval between
their idle and active endpoints after every frame: distort in [0.6, 0.70],
surfaceDistort in [1.4, 1.7] and the breathing scale in [0.64, 0.96]. -/
theorem shape_param_ranges (speedMults : ℕ → ℚ) (vs : ℕ → ℚ × ℚ × ℚ)
    (h : ∀ n, 0 ≤ (vs n).1 ∧ (vs n).1 ≤ 1 ∧ 0 ≤ (vs n).2.1 ∧ (vs n).2.1 ≤ 1 ∧
      0 ≤ (vs n).2.2 ∧ (vs n).2.2 ≤ 1) :
    ∀ n : ℕ,
      (0.6 ≤ (runFrames speedMults vs n).distort ∧
        (runFrames speedMults vs n).distort ≤ 0.70) ∧
      (1.4 ≤ (runFrames speedMults vs n).surfaceDistort ∧
        (runFrames speedMults vs n).surfaceDistort ≤ 1.7) ∧
      (0.64 ≤ (runFrames speedMults vs n).scale ∧
        (runFrames speedMults vs n).scale ≤ 0.96) := by
  intro n
  induction n with
  | zero =>
    norm_num [runFrames, initialAnimState, BLOB_DEFAULTS, SCALE_IDLE]
  | succ k ih =>
    obtain ⟨⟨hd1, hd2⟩, ⟨hs1, hs2⟩, ⟨hc1, hc2⟩⟩ := ih
    obtain ⟨ha0, ha1, hm0, hm1, hh0, hh1⟩ := h k
    have e : runFrames speedMults vs (k + 1) =
        frameStep (speedMults k) (vs k).1 (vs k).2.1 (vs k).2.2
          (runFrames speedMults vs k) := rfl
    rw [e]
    refine ⟨?_, ?_, ?_⟩
    · rw [frameStep_distort]
      have hT := lerp_target_mem 0.6 0.70 (vs k).1 (by norm_num) ha0 ha1
      exact lerp_step_mem _ _ 0.6 0.70 hd1 hd2 hT.1 hT.2
    · rw [frameStep_surfaceDistort]
      have hsa0 : (0:ℚ) ≤ max (vs k).2.1 (vs k).2.2 := le_trans hm0 (le_max_left _ _)
      have hsa1 : max (vs k).2.1 (vs k).2.2 ≤ 1 := max_le hm1 hh1
      have hT := lerp_target_mem 1.4 1.7 (max (vs k).2.1 (vs k).2.2) (by norm_num) hsa0 hsa1
      exact lerp_step_mem _ _ 1.4 1.7 hs1 hs2 hT.1 hT.2
    · rw [frameStep_scale]
      have hT := lerp_target_mem 0.64 0.96 (vs k).1 (by norm_num) ha0 ha1
      exact scale_step_mem _ _ 0.64 0.96 hc1 hc2 hT.1 hT.2

/-- Concrete instance of the claim C10 theorem. -/
theorem shape_param_ranges_witness :
    (∀ n : ℕ, 0 ≤ ((fun _ : ℕ => ((0:ℚ), (0:ℚ), (0:ℚ))) n).1 ∧
      ((fun _ : ℕ => ((0:ℚ), (0:ℚ), (0:ℚ))) n).1 ≤ 1 ∧
      0 ≤ ((fun _ : ℕ => ((0:ℚ), (0:ℚ), (0:ℚ))) n).2.1 ∧
      ((fun _ : ℕ => ((0:ℚ), (0:ℚ), (0:ℚ))) n).2.1 ≤ 1 ∧
      0 ≤ ((fun _ : ℕ => ((0:ℚ), (0:ℚ), (0:ℚ))) n).2.2 ∧
      ((fun _ : ℕ => ((0:ℚ), (0:ℚ), (0:ℚ))) n).2.2 ≤ 1) ∧
    ((0.6 ≤ (runFrames (fun _ => 1) (fun _ : ℕ => ((0:ℚ), (0:ℚ), (0:ℚ))) 1).distort ∧
      (runFrames (fun _ => 1) (fun _ : ℕ => ((0:ℚ), (0:ℚ), (0:ℚ))) 1).distort ≤ 0.70) ∧
     (1.4 ≤ (runFrames (fun _ => 1) (fun _ : ℕ => ((0:ℚ), (0:ℚ), (0:ℚ))) 1).surfaceDistort ∧
      (runFrames (fun _ => 1) (fun _ : ℕ => ((0:ℚ), (0:ℚ), (0:ℚ))) 1).surfaceDistort ≤ 1.7) ∧
     (0.64 ≤ (runFrames (fun _ => 1) (fun _ : ℕ => ((0:ℚ), (0:ℚ), (0:ℚ))) 1).scale ∧
      (runFrames (fun _ => 1) (fun _ : ℕ => ((0:ℚ), (0:ℚ), (0:ℚ))) 1).scale ≤ 0.96)) :=
  ⟨fun n => by norm_num,
   shape_param_ranges (fun _ => 1) (fun _ : ℕ => ((0:ℚ), (0:ℚ), (0:ℚ)))
     (fun n => by norm_num) 1⟩
